import Mathlib

/-!
Verification of the responsive-css-converter conversion engine
(`src/utils/converter.ts`, given here as `src/unnamed/part_007`).

The engine is embedded shallowly:
* JS numbers are modelled by `ℚ` (all values reached by the engine are exact
  decimal fractions; `Number.prototype.toFixed` followed by `Number(...)` is
  exact half-away-from-zero decimal rounding, and the template-string
  conversion of such a number is its shortest decimal representation).
* The two regular expressions of the source (`CSS_PX_REGEX` and the root
  font-size detector) are embedded as character-list scanners that follow the
  JS engine's leftmost-match / greedy / lazy backtracking behaviour for those
  particular patterns.
* `precision` is modelled as `Nat` (the spec's Configuration invariant:
  a non-negative integer); `\s` is modelled by its ASCII members, and
  exponent notation for parse/print is out of modelled scope (no value the
  scanner produces uses it).
-/

/-- Target unit enum: `'rem' | 'em' | '%' | 'vw' | 'vh'` from `types/index.ts`. -/
inductive CSSUnit where
  | rem
  | em
  | pct
  | vw
  | vh
deriving DecidableEq, Repr

/-- `PropertyCategory` from `types/index.ts`. -/
inductive PropertyCategory where
  | layout
  | typography
  | spacing
  | other
deriving DecidableEq, Repr

/-- `ConversionSettings` from `types/index.ts`. -/
structure ConversionSettings where
  basePixelSize : ℚ
  targetUnit : CSSUnit
  precision : Nat
deriving DecidableEq, Repr

/-- Runtime value of `PROPERTY_CATEGORIES[cleanProperty] || 'other'`: JS
bracket access consults the prototype chain of the object literal, and the one
inherited `Object.prototype` key reachable through the scanner's lowercased
captures is `constructor`, whose value (the `Object` constructor function) is
truthy and therefore bypasses the `|| 'other'` fallback. That function is not
one of the four category strings, so `categoryBreakdown[category]++` then
lands on a junk stringified-function key (value `NaN`) and touches none of
the four declared counters. -/
inductive JSCategoryValue where
  | cat (c : PropertyCategory)
  | protoObjectCtor
deriving DecidableEq, Repr

/-- `ConversionDiff` from `types/index.ts` (fields as populated by
`convertCSS`). The `category` field is declared as `PropertyCategory` in TS,
but at runtime the prototype-chain path stores the inherited `constructor`
value in it, so it is modelled by `JSCategoryValue`. -/
structure ConversionDiff where
  original : String
  converted : String
  property : String
  line : Nat
  category : JSCategoryValue
  impactsResponsiveness : Bool
  impactsAccessibility : Bool
  needsReview : Bool
  reviewReason : String
deriving DecidableEq, Repr

/-- The `baseValues` sub-record of `ConversionStats`. -/
structure BaseValues where
  fontSize : ℚ
  viewportWidth : Nat
  viewportHeight : Nat
deriving DecidableEq, Repr

/-- `categoryBreakdown`: a record with the four category counters, always present. -/
structure CategoryBreakdown where
  layout : Nat
  typography : Nat
  spacing : Nat
  other : Nat
deriving DecidableEq, Repr

/-- `ConversionStats` from `types/index.ts`. -/
structure ConversionStats where
  totalConversions : Nat
  diffs : List ConversionDiff
  baseValues : BaseValues
  categoryBreakdown : CategoryBreakdown
  accessibilityIssues : Nat
  responsiveBreakpointImpact : Nat
  needsReviewCount : Nat
deriving DecidableEq, Repr

/-- `ConversionResult` from `types/index.ts` (the canonical shape always carries stats). -/
structure ConversionResult where
  originalCode : String
  convertedCode : String
  errors : List String
  stats : ConversionStats
deriving DecidableEq, Repr

/-- The internal `AccessibilityIssue` interface of `converter.ts`;
`isError` is true for severity `'error'`, false for `'warning'`. -/
structure AccessibilityIssue where
  property : String
  value : ℚ
  reason : String
  isError : Bool
deriving DecidableEq, Repr

/-- ASCII members of the JS `\s` class (and of `String.prototype.trim`). -/
def isWS (c : Char) : Bool :=
  c == ' ' || c == '\t' || c == '\n' || c == '\r' || c == Char.ofNat 11 || c == Char.ofNat 12

/-- The character class `[a-zA-Z-]` of `CSS_PX_REGEX`. -/
def isPropChar (c : Char) : Bool := c.isAlpha || c == '-'

/-- JS `String.prototype.trim` (ASCII whitespace). -/
def jsTrim (s : String) : String :=
  String.mk (((s.data.dropWhile isWS).reverse.dropWhile isWS).reverse)

/-- JS `String.prototype.toLowerCase` (ASCII range, all inputs here are ASCII). -/
def jsLower (s : String) : String := String.map Char.toLower s

/-- Does the first list start with the second? -/
def charsHasPre : List Char → List Char → Bool
  | _, [] => true
  | [], _ :: _ => false
  | c :: cs, d :: ds => c == d && charsHasPre cs ds

/-- Contiguous-substring test on character lists. -/
def charsIncl (cs sub : List Char) : Bool :=
  match cs with
  | [] => charsHasPre [] sub
  | c :: cs' => charsHasPre (c :: cs') sub || charsIncl cs' sub

/-- JS `String.prototype.includes`. -/
def strIncludes (s sub : String) : Bool := charsIncl s.data sub.data

/-- Numeric value of a digit list (most significant first). -/
def natOfDigits (cs : List Char) : Nat :=
  cs.foldl (fun n c => 10 * n + (c.toNat - 48)) 0

/-- Value of `a` integer digits and `b` fraction digits, as an exact rational. -/
def decOf (a b : List Char) : ℚ :=
  (natOfDigits a : ℚ) + (natOfDigits b : ℚ) / 10 ^ b.length

/-- JS `parseFloat`, restricted to the decimal forms that occur here:
optional ASCII whitespace, optional sign, digits and at most one point, read as
a longest prefix. Exponent suffixes are not modelled (the scanner's captures
match `\d*\.?\d+` and never contain one). Returns `none` for NaN. -/
def jsParseFloat (s : String) : Option ℚ :=
  let cs := s.data.dropWhile isWS
  let sgn : Bool × List Char :=
    match cs with
    | '-' :: r => (true, r)
    | '+' :: r => (false, r)
    | r => (false, r)
  let a := sgn.2.takeWhile Char.isDigit
  let r1 := sgn.2.dropWhile Char.isDigit
  let core : Option ℚ :=
    match r1 with
    | '.' :: r2 =>
      let b := r2.takeWhile Char.isDigit
      if a.isEmpty && b.isEmpty then none else some (decOf a b)
    | _ => if a.isEmpty then none else some (decOf a [])
  core.map (fun q => if sgn.1 then -q else q)

/-- Digits of a positive natural, most significant first (fuel-driven so that
the kernel can evaluate it). -/
def natDigitsCore : Nat → Nat → List Char
  | 0, _ => []
  | fuel + 1, n => if n = 0 then [] else natDigitsCore fuel (n / 10) ++ [Nat.digitChar (n % 10)]

/-- Decimal string of a natural number (JS `${n}` for naturals). -/
def natStr (n : Nat) : String :=
  if n = 0 then "0" else String.mk (natDigitsCore (n + 1) n)

/-- Fraction digits of `r` (with `0 ≤ r < 1`), produced by repeated
multiplication by ten until the remainder is zero (fuel-capped). -/
def fracDigs : Nat → ℚ → List Char
  | 0, _ => []
  | fuel + 1, r =>
    if r = 0 then []
    else Nat.digitChar (Int.toNat ⌊r * 10⌋) :: fracDigs fuel (r * 10 - (⌊r * 10⌋ : ℚ))

/-- JS number-to-string (`${n}`) for the exact decimal fractions produced by
the engine: sign, integer part, and the terminating fraction digits with no
trailing zeros. -/
def decStr (q : ℚ) : String :=
  let aq := |q|
  let ip := Int.toNat ⌊aq⌋
  let ds := fracDigs 64 (aq - (⌊aq⌋ : ℚ))
  (if q < 0 then "-" else "") ++ natStr ip ++ (if ds.isEmpty then "" else "." ++ String.mk ds)

/-- `Number(x.toFixed(p))`: exact decimal rounding of `x` to `p` places,
half away from zero (the ECMAScript `toFixed` tie rule after its sign split). -/
def jsRoundFixed (x : ℚ) (p : Nat) : ℚ :=
  let n : ℤ := ⌊|x| * 10 ^ p + 1 / 2⌋
  (if x < 0 then -(n : ℚ) else (n : ℚ)) / 10 ^ p

/-- The literal text of each target unit. -/
def unitToStr : CSSUnit → String
  | CSSUnit.rem => "rem"
  | CSSUnit.em => "em"
  | CSSUnit.pct => "%"
  | CSSUnit.vw => "vw"
  | CSSUnit.vh => "vh"

/-- `convertCSSValue` of `converter.ts` lines 39-68: parse the literal
(`NaN` returns it unchanged), divide by the base (times 100 for `%`/`vw`/`vh`),
then `Number(convertedValue.toFixed(precision))` followed by template-string
concatenation with the unit. -/
def convertCSSValue (value : String) (settings : ConversionSettings) : String :=
  match jsParseFloat value with
  | none => value
  | some pixelValue =>
    let convertedValue : ℚ :=
      match settings.targetUnit with
      | CSSUnit.rem => pixelValue / settings.basePixelSize
      | CSSUnit.em => pixelValue / settings.basePixelSize
      | CSSUnit.pct => pixelValue / settings.basePixelSize * 100
      | CSSUnit.vw => pixelValue / settings.basePixelSize * 100
      | CSSUnit.vh => pixelValue / settings.basePixelSize * 100
    let formattedValue : ℚ := jsRoundFixed convertedValue settings.precision
    decStr formattedValue ++ unitToStr settings.targetUnit

/-- Match of the capture `(\d*\.?\d+)` immediately followed by the literal
`px`, at the head of the list, with the JS backtracking behaviour of
`CSS_PX_REGEX`: greedy digits, an optional point that must then be followed by
at least one digit, and `px` directly after. Returns the captured number and
the rest after `px`. -/
def matchNum (cs : List Char) : Option (List Char × List Char) :=
  let a := cs.takeWhile Char.isDigit
  let r1 := cs.dropWhile Char.isDigit
  match r1 with
  | '.' :: r2 =>
    let b := r2.takeWhile Char.isDigit
    let r3 := r2.dropWhile Char.isDigit
    match b, r3 with
    | _ :: _, 'p' :: 'x' :: rest => some (a ++ '.' :: b, rest)
    | _, _ => none
  | 'p' :: 'x' :: rest =>
    match a with
    | [] => none
    | _ :: _ => some (a, rest)
  | _ => none

/-- The lazy `[^;]*?` part of `CSS_PX_REGEX`: starting from the current
position, find the nearest position where `(\d*\.?\d+)px` matches, absorbing
only non-`;` characters on the way (they extend the property capture `acc`).
Returns (group 1, group 2, rest after `px`). -/
def lazyScan (acc cs : List Char) : Option (List Char × List Char × List Char) :=
  match matchNum cs with
  | some pr => some (acc, pr.1, pr.2)
  | none =>
    match cs with
    | [] => none
    | c :: cs' => if c == ';' then none else lazyScan (acc ++ [c]) cs'

/-- An attempt to match `CSS_PX_REGEX` = `([a-zA-Z-]+\s*:\s*[^;]*?)(\d*\.?\d+)px`
starting exactly at the head of `cs`: a nonempty `[a-zA-Z-]+` run, optional
whitespace, a colon, optional whitespace, then the lazy search for the number.
Returns (group 1, group 2, rest after the match). -/
def tryMatchAt (cs : List Char) : Option (List Char × List Char × List Char) :=
  let r1 := cs.takeWhile isPropChar
  let t1 := cs.dropWhile isPropChar
  match r1 with
  | [] => none
  | _ :: _ =>
    let w1 := t1.takeWhile isWS
    let t2 := t1.dropWhile isWS
    match t2 with
    | ':' :: t3 =>
      let w2 := t3.takeWhile isWS
      let t4 := t3.dropWhile isWS
      lazyScan (r1 ++ w1 ++ ':' :: w2) t4
    | _ => none

/-- One line of `line.replace(CSS_PX_REGEX, ...)`: walk the characters,
try the pattern at every position (a failed attempt advances one character, a
match continues after its `px`), and rebuild the text with each whole match
replaced by `property ++ convertCSSValue(value)`. Returns the list of matches
(group 1, group 2) in order together with the rewritten text. The `Nat` fuel
only bounds the recursion; `fuel = cs.length` always suffices because every
step consumes at least one character. -/
def scanAuxF (es : ConversionSettings) : Nat → List Char → List (String × String) × List Char
  | 0, cs => ([], cs)
  | _ + 1, [] => ([], [])
  | fuel + 1, c :: cs =>
    match tryMatchAt (c :: cs) with
    | some (g1, g2, rest) =>
      let pr := scanAuxF es fuel rest
      ((String.mk g1, String.mk g2) :: pr.1, g1 ++ (convertCSSValue (String.mk g2) es).data ++ pr.2)
    | none =>
      let pr := scanAuxF es fuel cs
      (pr.1, c :: pr.2)

/-- Case-insensitive match of a lowercase literal at the head of the input;
returns the rest of the input. -/
def matchCI : List Char → List Char → Option (List Char)
  | cs, [] => some cs
  | [], _ :: _ => none
  | c :: cs, d :: ds => if c.toLower == d then matchCI cs ds else none

/-- The selector alternation `(?:html|:root|body)` of the detection regex
(case-insensitive, tried in that order). -/
def selAfter (cs : List Char) : Option (List Char) :=
  match matchCI cs "html".data with
  | some r => some r
  | none =>
    match matchCI cs ":root".data with
    | some r => some r
    | none => matchCI cs "body".data

/-- The unit alternation `(px|rem|em)` of the detection regex: matched
case-insensitively, but the capture keeps the original characters (the caller
compares the capture to the exact strings `'rem'`/`'em'`). -/
def unitAt (v : ℚ) (cs : List Char) : Option (ℚ × String) :=
  match matchCI cs "px".data with
  | some _ => some (v, String.mk (cs.take 2))
  | none =>
    match matchCI cs "rem".data with
    | some _ => some (v, String.mk (cs.take 3))
    | none =>
      match matchCI cs "em".data with
      | some _ => some (v, String.mk (cs.take 2))
      | none => none

/-- `font-size\s*:\s*(\d+(?:\.\d+)?)(px|rem|em)` at the head of the block:
the keyword (case-insensitive), optional whitespace around the colon, at least
one digit, an optional fraction that must carry at least one digit, and the
unit directly after. -/
def fsMatchAt (cs : List Char) : Option (ℚ × String) :=
  match matchCI cs "font-size".data with
  | none => none
  | some r1 =>
    let r2 := r1.dropWhile isWS
    match r2 with
    | ':' :: r3 =>
      let r4 := r3.dropWhile isWS
      let a := r4.takeWhile Char.isDigit
      let r5 := r4.dropWhile Char.isDigit
      match a with
      | [] => none
      | _ :: _ =>
        match r5 with
        | '.' :: r6 =>
          let b := r6.takeWhile Char.isDigit
          let r7 := r6.dropWhile Char.isDigit
          match b with
          | [] => none
          | _ :: _ => unitAt (decOf a b) r7
        | _ => unitAt (decOf a []) r5
    | _ => none

/-- Scan a brace block for `font-size` declarations. The greedy `[^}]*` before
the keyword makes the JS engine commit to the LAST occurrence whose remainder
matches, so later successes overwrite earlier ones. The rem/em multiplication
by 16 uses the exact captured unit text, as in `detectRootFontSize`. -/
def findFS : List Char → Option ℚ → Option ℚ
  | [], acc => acc
  | c :: cs, acc =>
    match fsMatchAt (c :: cs) with
    | some pr => findFS cs (some (if pr.2 = "rem" ∨ pr.2 = "em" then pr.1 * 16 else pr.1))
    | none => findFS cs acc

/-- An attempt to match the whole detection regex starting at the head:
selector, optional whitespace, `{`, then a block running to the first `}`
(which must exist), inside which the font-size pattern is searched. -/
def tryRootAt (cs : List Char) : Option ℚ :=
  match selAfter cs with
  | none => none
  | some r1 =>
    let r2 := r1.dropWhile isWS
    match r2 with
    | '{' :: r3 =>
      let block := r3.takeWhile (fun c => !(c == '}'))
      let after := r3.dropWhile (fun c => !(c == '}'))
      match after with
      | '}' :: _ => findFS block none
      | _ => none
    | _ => none

/-- Leftmost-match search for the detection regex over the whole input. -/
def drfsGo : List Char → Option ℚ
  | [] => none
  | c :: cs =>
    match tryRootAt (c :: cs) with
    | some v => some v
    | none => drfsGo cs

/-- `detectRootFontSize` of `converter.ts` lines 9-25. -/
def detectRootFontSize (css : String) : Option ℚ := drfsGo css.data

/-- `detectedBaseSize || settings.basePixelSize` (line 206): a detected value
of `0` is falsy and is discarded in favour of the configured base. -/
def effectiveBase (css : String) (settings : ConversionSettings) : ℚ :=
  match detectRootFontSize css with
  | some v => if v = 0 then settings.basePixelSize else v
  | none => settings.basePixelSize

/-- The advisory text pushed at line 210. -/
def detectNote (detected base : ℚ) : String :=
  "Note: Detected root font-size of " ++ decStr detected ++
    "px in CSS. Using this instead of " ++ decStr base ++ "px."

/-- `PROPERTY_CATEGORIES` (lines 71-104), in source order. -/
def PROPERTY_CATEGORIES : List (String × PropertyCategory) :=
  [("width", PropertyCategory.layout), ("height", PropertyCategory.layout),
   ("max-width", PropertyCategory.layout), ("min-width", PropertyCategory.layout),
   ("max-height", PropertyCategory.layout), ("min-height", PropertyCategory.layout),
   ("margin", PropertyCategory.spacing), ("padding", PropertyCategory.spacing),
   ("top", PropertyCategory.layout), ("right", PropertyCategory.layout),
   ("bottom", PropertyCategory.layout), ("left", PropertyCategory.layout),
   ("font-size", PropertyCategory.typography), ("line-height", PropertyCategory.typography),
   ("letter-spacing", PropertyCategory.typography), ("word-spacing", PropertyCategory.typography),
   ("gap", PropertyCategory.spacing), ("column-gap", PropertyCategory.spacing),
   ("row-gap", PropertyCategory.spacing),
   ("margin-top", PropertyCategory.spacing), ("margin-right", PropertyCategory.spacing),
   ("margin-bottom", PropertyCategory.spacing), ("margin-left", PropertyCategory.spacing),
   ("padding-top", PropertyCategory.spacing), ("padding-right", PropertyCategory.spacing),
   ("padding-bottom", PropertyCategory.spacing), ("padding-left", PropertyCategory.spacing)]

/-- `PROPERTY_CATEGORIES[cleanProperty] || 'other'` (line 236), with the JS
prototype-chain semantics of bracket access on an object literal: an own key
yields its category; the inherited key `constructor` (the only
`Object.prototype` property whose name is all-lowercase, hence the only one a
lowercased capture can hit) yields the truthy `Object` constructor, bypassing
the `|| 'other'` fallback; anything else is `undefined` and falls back to
`other`. -/
def propCategory (p : String) : JSCategoryValue :=
  match List.lookup p PROPERTY_CATEGORIES with
  | some c => JSCategoryValue.cat c
  | none =>
    if p = "constructor" then JSCategoryValue.protoObjectCtor
    else JSCategoryValue.cat PropertyCategory.other

/-- `RESPONSIVE_PROPERTIES` (lines 107-132). -/
def RESPONSIVE_PROPERTIES : List String :=
  ["width", "max-width", "min-width", "height", "max-height", "min-height",
   "left", "right", "top", "bottom",
   "margin", "margin-top", "margin-right", "margin-bottom", "margin-left",
   "padding", "padding-top", "padding-right", "padding-bottom", "padding-left",
   "gap", "row-gap", "column-gap", "font-size"]

/-- `MIN_ACCESSIBLE_SIZES` (lines 135-151). -/
def MIN_ACCESSIBLE_SIZES : List (String × ℚ) :=
  [("font-size", 12), ("line-height", 18), ("height", 44), ("width", 44),
   ("padding", 8), ("padding-top", 8), ("padding-right", 8), ("padding-bottom", 8),
   ("padding-left", 8),
   ("margin", 8), ("margin-top", 8), ("margin-right", 8), ("margin-bottom", 8),
   ("margin-left", 8), ("gap", 8)]

/-- `INTERACTIVE_SELECTORS` (lines 160-170). -/
def INTERACTIVE_SELECTORS : List String :=
  ["button", "a", "input", "select", "textarea",
   "[role=\x22button\x22]", "[role=\x22link\x22]", "[role=\x22menuitem\x22]", "[role=\x22tab\x22]"]

/-- `INTERACTIVE_SELECTORS.some(sel => line.toLowerCase().includes(sel))`
(lines 313-315) on the full original line text. -/
def isInteractiveLine (line : String) : Bool :=
  INTERACTIVE_SELECTORS.any (fun sel => strIncludes (jsLower line) sel)

/-- The `.replace(/\s*:\s*$/, '')` step of line 228: strip one trailing colon
together with the whitespace around it, if present; otherwise leave the string
unchanged. -/
def stripColonSuffix (s : String) : String :=
  let r := s.data.reverse
  let r1 := r.dropWhile isWS
  match r1 with
  | ':' :: r2 => String.mk ((r2.dropWhile isWS).reverse)
  | _ => s

/-- `property.trim().toLowerCase().replace(/\s*:\s*$/, '')` (line 228). -/
def cleanProp (property : String) : String :=
  stripColonSuffix (jsLower (jsTrim property))

/-- Review heuristic of lines 244-252: large values, then very small
non-border values. Result: (needsReview, reviewReason, counter increments). -/
def reviewStep1 (prop : String) (pv : ℚ) : Bool × String × Nat :=
  if pv > 1000 then (true, "Large value may need manual review", 1)
  else if pv < 2 ∧ strIncludes prop "border" = false then
    (true, "Very small value may need manual review", 1)
  else (false, "", 0)

/-- Review heuristic of lines 255-259: border properties converted to a unit
other than rem. -/
def reviewStep2 (prop : String) (settings : ConversionSettings) (t : Bool × String × Nat) :
    Bool × String × Nat :=
  if strIncludes prop "border" = true ∧ settings.targetUnit ≠ CSSUnit.rem then
    (true, "Border widths are typically better kept in px or rem units", t.2.2 + 1)
  else t

/-- Review heuristic of lines 262-270: viewport units on font-size,
line-height or border properties. -/
def reviewStep3 (prop : String) (settings : ConversionSettings) (t : Bool × String × Nat) :
    Bool × String × Nat :=
  if (settings.targetUnit = CSSUnit.vw ∨ settings.targetUnit = CSSUnit.vh) ∧
      (strIncludes prop "font-size" = true ∨ strIncludes prop "line-height" = true ∨
        strIncludes prop "border" = true) then
    (true,
      "Using " ++ unitToStr settings.targetUnit ++ " units for " ++ prop ++
        " might cause issues at different viewport sizes",
      t.2.2 + 1)
  else t

/-- Minimum-size accessibility check (lines 282-291). -/
def minSizeIssue (prop : String) (pv : ℚ) : Option AccessibilityIssue :=
  match List.lookup prop MIN_ACCESSIBLE_SIZES with
  | some thr =>
    if pv < thr then
      some ⟨prop, pv, "Value is below minimum accessible size of " ++ decStr thr ++ "px", true⟩
    else none
  | none => none

/-- Maximum-size accessibility check (lines 294-310): line-height against
2.5 times the effective base, letter-spacing magnitude against 0.5. -/
def maxSizeIssue (prop : String) (pv effBase : ℚ) : Option AccessibilityIssue :=
  if prop = "line-height" ∧ pv > 5 / 2 * effBase then
    some ⟨prop, pv, "Line height is too large and may impact readability", false⟩
  else if prop = "letter-spacing" ∧ |pv| > 1 / 2 then
    some ⟨prop, pv, "Letter spacing is too extreme and may impact readability", false⟩
  else none

/-- Touch-target accessibility check (lines 317-326). -/
def touchTargetIssue (inter : Bool) (prop : String) (pv : ℚ) : Option AccessibilityIssue :=
  if inter = true ∧ (prop = "height" ∨ prop = "width") ∧ pv < 44 then
    some ⟨prop, pv, "Interactive elements should be at least 44px for touch targets", true⟩
  else none

/-- The sequential assignments of lines 279-326: each later check, when it
fires, overwrites the `accessibilityIssue` variable, so the last matching
check in source order (minimum, maximum, touch target) wins. -/
def pickAccIssue (inter : Bool) (prop : String) (pv effBase : ℚ) : Option AccessibilityIssue :=
  let a1 := minSizeIssue prop pv
  let a2 :=
    match maxSizeIssue prop pv effBase with
    | some i => some i
    | none => a1
  match touchTargetIssue inter prop pv with
  | some i => some i
  | none => a2

/-- Lines 328-335: if an accessibility issue exists, bump the issue counter,
and when no review reason was set yet (`!reviewReason`, i.e. the empty
string), the accessibility reason becomes the review reason. Result extends
the review triple with the issue counter increment folded into `.2.2`. -/
def reviewFinal (acc : Option AccessibilityIssue) (t : Bool × String × Nat) :
    Bool × String × Nat :=
  match acc with
  | none => t
  | some i => if t.2.1 = "" then (true, i.reason, t.2.2 + 1) else t

/-- The accumulating counters and diff list of one `convertCSS` pass. -/
structure ScanState where
  total : Nat
  layout : Nat
  typography : Nat
  spacing : Nat
  other : Nat
  accCount : Nat
  nrc : Nat
  diffs : List ConversionDiff
deriving DecidableEq, Repr

/-- The initial counters of `convertCSS`. -/
def initState : ScanState := ⟨0, 0, 0, 0, 0, 0, 0, []⟩

/-- The body of the replace callback for one conversion event (lines 232-350):
category bookkeeping, the review heuristics, the accessibility checks, and
the diff record. `g1`/`g2` are the two capture groups. -/
def applyMatch (settings : ConversionSettings) (effBase : ℚ) (lineText : String)
    (lineNo : Nat) (st : ScanState) (g1 g2 : String) : ScanState :=
  let cleanProperty := cleanProp g1
  let pixelValue := (jsParseFloat g2).getD 0
  let es : ConversionSettings := { settings with basePixelSize := effBase }
  let convertedValue := convertCSSValue g2 es
  let category := propCategory cleanProperty
  let fin :=
    reviewFinal (pickAccIssue (isInteractiveLine lineText) cleanProperty pixelValue effBase)
      (reviewStep3 cleanProperty settings
        (reviewStep2 cleanProperty settings (reviewStep1 cleanProperty pixelValue)))
  let accIssue := pickAccIssue (isInteractiveLine lineText) cleanProperty pixelValue effBase
  let d : ConversionDiff :=
    { original := g2 ++ "px"
      converted := convertedValue
      property := cleanProperty
      line := lineNo
      category := category
      impactsResponsiveness := RESPONSIVE_PROPERTIES.contains cleanProperty
      impactsAccessibility := accIssue.isSome
      needsReview := fin.1
      reviewReason :=
        match accIssue with
        | some i => i.reason
        | none => fin.2.1 }
  { total := st.total + 1
    layout := st.layout +
      (if category = JSCategoryValue.cat PropertyCategory.layout then 1 else 0)
    typography := st.typography +
      (if category = JSCategoryValue.cat PropertyCategory.typography then 1 else 0)
    spacing := st.spacing +
      (if category = JSCategoryValue.cat PropertyCategory.spacing then 1 else 0)
    other := st.other +
      (if category = JSCategoryValue.cat PropertyCategory.other then 1 else 0)
    accCount := st.accCount + (if accIssue.isSome then 1 else 0)
    nrc := st.nrc + fin.2.2
    diffs := st.diffs ++ [d] }

/-- One match of the replace callback: stats change only when the converted
text differs from the captured value (line 232), otherwise the state is kept. -/
def processMatch (settings : ConversionSettings) (effBase : ℚ) (lineText : String)
    (lineNo : Nat) (st : ScanState) (m : String × String) : ScanState :=
  if convertCSSValue m.2 { settings with basePixelSize := effBase } ≠ m.2 then
    applyMatch settings effBase lineText lineNo st m.1 m.2
  else st

/-- `css.split('\n')` on character lists. -/
def splitLines : List Char → List (List Char)
  | [] => [[]]
  | c :: cs =>
    let ls := splitLines cs
    if c == '\n' then [] :: ls
    else
      match ls with
      | [] => [[c]]
      | l :: ls' => (c :: l) :: ls'

/-- `lines.join('\n')` on character lists. -/
def joinLines : List (List Char) → List Char
  | [] => []
  | [l] => l
  | l :: ls => l ++ '\n' :: joinLines ls

/-- The per-line pass of `convertCSS` (lines 225-353): each line is scanned
and rewritten, and its matches are folded through the stats state; the line
counter is 1-based in scan order. -/
def scanDoc (settings : ConversionSettings) (effBase : ℚ) :
    Nat → List (List Char) → ScanState → ScanState × List (List Char)
  | _, [], st => (st, [])
  | n, l :: ls, st =>
    let es : ConversionSettings := { settings with basePixelSize := effBase }
    let pr := scanAuxF es l.length l
    let st1 := pr.1.foldl (fun s m => processMatch settings effBase (String.mk l) n s m) st
    let res := scanDoc settings effBase (n + 1) ls st1
    (res.1, pr.2 :: res.2)

/-- `convertCSS` of `converter.ts` lines 192-378. The embedding is total, so
the `try`/`catch` wrapper (lines 220, 354-356) has no failing branch to model;
every other observable of the function is produced as in the source. -/
def convertCSS (css : String) (settings : ConversionSettings) : ConversionResult :=
  let detected := detectRootFontSize css
  let effBase := effectiveBase css settings
  let errors : List String :=
    match detected with
    | some v =>
      if v ≠ 0 ∧ v ≠ settings.basePixelSize then [detectNote v settings.basePixelSize] else []
    | none => []
  let pr := scanDoc settings effBase 1 (splitLines css.data) initState
  { originalCode := css
    convertedCode := String.mk (joinLines pr.2)
    errors := errors
    stats :=
      { totalConversions := pr.1.total
        diffs := pr.1.diffs
        baseValues := ⟨settings.basePixelSize, 1920, 1080⟩
        categoryBreakdown := ⟨pr.1.layout, pr.1.typography, pr.1.spacing, pr.1.other⟩
        accessibilityIssues := pr.1.accCount
        responsiveBreakpointImpact := 0
        needsReviewCount := pr.1.nrc } }

/-- C1: evaluation of the code at the claim's inputs. `Number(value.toFixed(p))`
strips trailing zeros, so the precision-2 conversion of `1200px` at base 16
produces `width: 75rem;`, not the `width: 75.00rem;` stated by the claim (and
expected by the repository's own unit and end-to-end tests); likewise
`convertCSSValue("16")` produces `1rem` where the unit tests expect `1.00rem`. -/
theorem claim_C1_code_eval :
    convertCSSValue "1200" ⟨16, CSSUnit.rem, 2⟩ = "75rem" ∧
    (convertCSS "width: 1200px;" ⟨16, CSSUnit.rem, 2⟩).convertedCode = "width: 75rem;" ∧
    convertCSSValue "16" ⟨16, CSSUnit.rem, 2⟩ = "1rem" ∧
    ("75rem" : String) ≠ "75.00rem" := by
  with_unfolding_all exact of_decide_eq_true rfl

/-- C10: `convertCSS` always returns the input string itself as
`originalCode` (the embedding is total, so the caught-failure path of the
source, which returns the same `originalCode: css`, has no separate branch);
the input is never altered. -/
theorem claim_C10 : ∀ (css : String) (s : ConversionSettings),
    (convertCSS css s).originalCode = css :=
  fun _ _ => rfl

/-- C2 as stated is false: a root font-size declaration that parses to `0`
(here `:root { font-size: 0px; }`) is found by the detector (`some 0`), and
the detected value `0` differs from the configured base 16, yet no advisory
note is appended and the conversions use the configured base 16
(`100px` becomes `6.25rem`, not a division by the detected 0). -/
theorem claim_C2_counterexample :
    detectRootFontSize ":root \x7b font-size: 0px; \x7d\nwidth: 100px;" = some 0 ∧
    (0 : ℚ) ≠ 16 ∧
    effectiveBase ":root \x7b font-size: 0px; \x7d\nwidth: 100px;" ⟨16, CSSUnit.rem, 2⟩ = 16 ∧
    (convertCSS ":root \x7b font-size: 0px; \x7d\nwidth: 100px;" ⟨16, CSSUnit.rem, 2⟩).errors = [] ∧
    (convertCSS ":root \x7b font-size: 0px; \x7d\nwidth: 100px;" ⟨16, CSSUnit.rem, 2⟩).convertedCode =
      ":root \x7b font-size: 0rem; \x7d\nwidth: 6.25rem;" := by
  with_unfolding_all exact of_decide_eq_true rfl

/-- C2 (amended): whenever the detector finds a root font-size declaration
whose detected value is NONZERO, that value is the effective base size for the
pass, and an informational note is appended to `errors` exactly when it
differs from the configured `basePixelSize`; a detected value of zero is
discarded (see the counterexample). In particular the 20px example behaves as
claimed: the note is appended and `100px` converts with base 20 to `5rem`. -/
theorem claim_C2_amended :
    (∀ (css : String) (s : ConversionSettings) (v : ℚ),
        detectRootFontSize css = some v → v ≠ 0 →
          effectiveBase css s = v ∧
            (v ≠ s.basePixelSize →
              (convertCSS css s).errors = [detectNote v s.basePixelSize])) ∧
    detectRootFontSize ":root \x7b font-size: 20px; \x7d\nwidth: 100px;" = some 20 ∧
    (convertCSS ":root \x7b font-size: 20px; \x7d\nwidth: 100px;" ⟨16, CSSUnit.rem, 2⟩).errors =
      ["Note: Detected root font-size of 20px in CSS. Using this instead of 16px."] ∧
    (convertCSS ":root \x7b font-size: 20px; \x7d\nwidth: 100px;" ⟨16, CSSUnit.rem, 2⟩).convertedCode =
      ":root \x7b font-size: 1rem; \x7d\nwidth: 5rem;" := by
  refine ⟨?_, ?_, ?_, ?_⟩
  · intro css s v hd hv
    constructor
    · simp [effectiveBase, hd, hv]
    · intro hne
      simp [convertCSS, hd, hv, hne]
  · with_unfolding_all exact of_decide_eq_true rfl
  · with_unfolding_all exact of_decide_eq_true rfl
  · with_unfolding_all exact of_decide_eq_true rfl

/-- Witness for C2 (amended), at the 20px example with configured base 16. -/
theorem claim_C2_witness :
    (convertCSS ":root \x7b font-size: 20px; \x7d\nwidth: 100px;" ⟨16, CSSUnit.rem, 2⟩).errors =
      [detectNote 20 16] :=
  (claim_C2_amended.1 ":root \x7b font-size: 20px; \x7d\nwidth: 100px;" ⟨16, CSSUnit.rem, 2⟩ 20
      (by with_unfolding_all exact of_decide_eq_true rfl)
      (by norm_num)).2 (by norm_num)

/-- C9: a root font-size declaration that parses to `0` is discarded: the
effective base equals the configured (positive) base, no advisory note is
appended, and the base actually used for division stays positive. -/
theorem claim_C9 (css : String) (s : ConversionSettings)
    (hd : detectRootFontSize css = some 0) (hb : 0 < s.basePixelSize) :
    effectiveBase css s = s.basePixelSize ∧
    (convertCSS css s).errors = [] ∧
    0 < effectiveBase css s := by
  refine ⟨?_, ?_, ?_⟩
  · simp [effectiveBase, hd]
  · simp [convertCSS, hd]
  · simpa [effectiveBase, hd] using hb

/-- Witness for C9 at the zero-detection example. -/
theorem claim_C9_witness :
    effectiveBase ":root \x7b font-size: 0px; \x7d\nwidth: 100px;" ⟨16, CSSUnit.rem, 2⟩ = 16 ∧
    (convertCSS ":root \x7b font-size: 0px; \x7d\nwidth: 100px;" ⟨16, CSSUnit.rem, 2⟩).errors = [] ∧
    0 < effectiveBase ":root \x7b font-size: 0px; \x7d\nwidth: 100px;" ⟨16, CSSUnit.rem, 2⟩ :=
  claim_C9 ":root \x7b font-size: 0px; \x7d\nwidth: 100px;" ⟨16, CSSUnit.rem, 2⟩
    (by with_unfolding_all exact of_decide_eq_true rfl) (by norm_num)

/-- Sum of the four category counters. -/
def catSum (st : ScanState) : Nat := st.layout + st.typography + st.spacing + st.other

/-- Number of diffs flagged for review. -/
def reviewCount (l : List ConversionDiff) : Nat := (l.filter fun d => d.needsReview).length

/-- Number of diffs flagged as accessibility-impacting. -/
def accessCount (l : List ConversionDiff) : Nat := (l.filter fun d => d.impactsAccessibility).length

theorem reviewCount_append_single (l : List ConversionDiff) (d : ConversionDiff) :
    reviewCount (l ++ [d]) = reviewCount l + (if d.needsReview then 1 else 0) := by
  simp only [reviewCount, List.filter_append, List.length_append]
  cases h : d.needsReview <;> simp [h]

theorem accessCount_append_single (l : List ConversionDiff) (d : ConversionDiff) :
    accessCount (l ++ [d]) = accessCount l + (if d.impactsAccessibility then 1 else 0) := by
  simp only [accessCount, List.filter_append, List.length_append]
  cases h : d.impactsAccessibility <;> simp [h]

theorem reviewStep1_inv (p : String) (pv : ℚ) :
    (reviewStep1 p pv).1 = true → 1 ≤ (reviewStep1 p pv).2.2 := by
  unfold reviewStep1
  split
  · intro _
    show 1 ≤ 1
    omega
  · split
    · intro _
      show 1 ≤ 1
      omega
    · intro hf
      exact Bool.noConfusion hf

theorem reviewStep2_inv (p : String) (s : ConversionSettings) (t : Bool × String × Nat)
    (h : t.1 = true → 1 ≤ t.2.2) :
    (reviewStep2 p s t).1 = true → 1 ≤ (reviewStep2 p s t).2.2 := by
  unfold reviewStep2
  split
  · intro _
    show 1 ≤ t.2.2 + 1
    omega
  · exact h

theorem reviewStep3_inv (p : String) (s : ConversionSettings) (t : Bool × String × Nat)
    (h : t.1 = true → 1 ≤ t.2.2) :
    (reviewStep3 p s t).1 = true → 1 ≤ (reviewStep3 p s t).2.2 := by
  unfold reviewStep3
  split
  · intro _
    show 1 ≤ t.2.2 + 1
    omega
  · exact h

theorem reviewFinal_inv (acc : Option AccessibilityIssue) (t : Bool × String × Nat)
    (h : t.1 = true → 1 ≤ t.2.2) :
    (reviewFinal acc t).1 = true → 1 ≤ (reviewFinal acc t).2.2 := by
  cases acc with
  | none => exact h
  | some i =>
    by_cases hc : t.2.1 = ""
    · simp only [reviewFinal, if_pos hc]
      intro _
      show 1 ≤ t.2.2 + 1
      omega
    · simpa only [reviewFinal, if_neg hc] using h

/-- Number of diffs whose property is exactly `constructor` (the
prototype-chain hits, which bypass all four category counters). -/
def ctorCount (l : List ConversionDiff) : Nat :=
  (l.filter fun d => d.property == "constructor").length

theorem ctorCount_append_single (l : List ConversionDiff) (d : ConversionDiff) :
    ctorCount (l ++ [d]) = ctorCount l + (if d.property = "constructor" then 1 else 0) := by
  simp only [ctorCount, List.filter_append, List.length_append]
  by_cases h : d.property = "constructor" <;> simp [h]

theorem propCategory_ctor : propCategory "constructor" = JSCategoryValue.protoObjectCtor := by
  with_unfolding_all exact of_decide_eq_true rfl

theorem propCategory_cat (p : String) (h : p ≠ "constructor") :
    ∃ c, propCategory p = JSCategoryValue.cat c := by
  cases hl : List.lookup p PROPERTY_CATEGORIES with
  | some c =>
    refine ⟨c, ?_⟩
    unfold propCategory
    rw [hl]
  | none =>
    refine ⟨PropertyCategory.other, ?_⟩
    unfold propCategory
    rw [hl]
    exact if_neg h

theorem pmCatCtor (settings : ConversionSettings) (b : ℚ) (lt : String) (n : Nat)
    (st : ScanState) (m : String × String)
    (h : catSum st + ctorCount st.diffs = st.total) :
    catSum (processMatch settings b lt n st m) +
      ctorCount (processMatch settings b lt n st m).diffs =
      (processMatch settings b lt n st m).total := by
  unfold processMatch
  split
  · simp only [applyMatch]
    rw [ctorCount_append_single]
    by_cases hctor : cleanProp m.1 = "constructor"
    · rw [hctor, propCategory_ctor]
      simp only [catSum] at h ⊢
      simp
      omega
    · obtain ⟨c, hc⟩ := propCategory_cat (cleanProp m.1) hctor
      rw [hc]
      simp only [catSum] at h ⊢
      cases c <;> simp [hctor] <;> omega
  · exact h

theorem pmNrc (settings : ConversionSettings) (b : ℚ) (lt : String) (n : Nat)
    (st : ScanState) (m : String × String) (h : reviewCount st.diffs ≤ st.nrc) :
    reviewCount (processMatch settings b lt n st m).diffs ≤ (processMatch settings b lt n st m).nrc := by
  unfold processMatch
  split
  · simp only [applyMatch]
    have hchain :=
      reviewFinal_inv
        (pickAccIssue (isInteractiveLine lt) (cleanProp m.1) ((jsParseFloat m.2).getD 0) b)
        (reviewStep3 (cleanProp m.1) settings
          (reviewStep2 (cleanProp m.1) settings (reviewStep1 (cleanProp m.1) ((jsParseFloat m.2).getD 0))))
        (reviewStep3_inv _ _ _ (reviewStep2_inv _ _ _ (reviewStep1_inv _ _)))
    generalize hF :
      reviewFinal
        (pickAccIssue (isInteractiveLine lt) (cleanProp m.1) ((jsParseFloat m.2).getD 0) b)
        (reviewStep3 (cleanProp m.1) settings
          (reviewStep2 (cleanProp m.1) settings (reviewStep1 (cleanProp m.1) ((jsParseFloat m.2).getD 0)))) = F
      at hchain ⊢
    rw [reviewCount_append_single]
    simp only
    cases hb : F.1 <;> simp [hb] at hchain ⊢ <;> omega
  · exact h

theorem pmAcc (settings : ConversionSettings) (b : ℚ) (lt : String) (n : Nat)
    (st : ScanState) (m : String × String) (h : accessCount st.diffs = st.accCount) :
    accessCount (processMatch settings b lt n st m).diffs = (processMatch settings b lt n st m).accCount := by
  unfold processMatch
  split
  · simp only [applyMatch]
    generalize pickAccIssue (isInteractiveLine lt) (cleanProp m.1) ((jsParseFloat m.2).getD 0) b = A
    rw [accessCount_append_single]
    simp only
    cases A <;> simp [h]
  · exact h

/-- Transport of a state invariant through the fold over one line's matches. -/
theorem foldlPM (P : ScanState → Prop)
    (hP : ∀ settings b lt n st m, P st → P (processMatch settings b lt n st m))
    (ms : List (String × String)) (settings : ConversionSettings) (b : ℚ) (lt : String)
    (n : Nat) (st : ScanState) (h : P st) :
    P (ms.foldl (fun s m => processMatch settings b lt n s m) st) := by
  induction ms generalizing st with
  | nil => exact h
  | cons m ms ih => exact ih _ (hP _ _ _ _ _ _ h)

/-- Transport of a state invariant through the whole document scan. -/
theorem scanDocInv (P : ScanState → Prop)
    (hP : ∀ settings b lt n st m, P st → P (processMatch settings b lt n st m))
    (ls : List (List Char)) (settings : ConversionSettings) (b : ℚ) (n : Nat)
    (st : ScanState) (h : P st) :
    P (scanDoc settings b n ls st).1 := by
  induction ls generalizing n st with
  | nil => simpa [scanDoc] using h
  | cons l ls ih =>
    simp only [scanDoc]
    exact ih _ _ (foldlPM P hP _ _ _ _ _ _ h)

/-- C7 as stated is false in the program: on `constructor: 5px;` the cleaned
property is `constructor`, JS bracket access returns the inherited (truthy)
`Object` constructor, the `|| 'other'` fallback is bypassed, and the
increment lands on a junk key — `totalConversions` becomes 1 while the four
category counters sum to 0. -/
theorem claim_C7_counterexample :
    (convertCSS "constructor: 5px;" ⟨16, CSSUnit.rem, 2⟩).stats.totalConversions = 1 ∧
    (convertCSS "constructor: 5px;" ⟨16, CSSUnit.rem, 2⟩).stats.categoryBreakdown.layout +
      (convertCSS "constructor: 5px;" ⟨16, CSSUnit.rem, 2⟩).stats.categoryBreakdown.typography +
      (convertCSS "constructor: 5px;" ⟨16, CSSUnit.rem, 2⟩).stats.categoryBreakdown.spacing +
      (convertCSS "constructor: 5px;" ⟨16, CSSUnit.rem, 2⟩).stats.categoryBreakdown.other = 0 := by
  with_unfolding_all exact of_decide_eq_true rfl

/-- C7 (amended): the four `categoryBreakdown` counters (all four present by
construction of the record) sum to `totalConversions` MINUS the number of
conversion events whose property is exactly `constructor` — those hit the
prototype chain and increment none of the four counters; equivalently, the
sum plus the count of `constructor` diffs equals `totalConversions`, so the
claimed equality holds exactly when no converted property is `constructor`. -/
theorem claim_C7_amended : ∀ (css : String) (s : ConversionSettings),
    (convertCSS css s).stats.categoryBreakdown.layout +
      (convertCSS css s).stats.categoryBreakdown.typography +
      (convertCSS css s).stats.categoryBreakdown.spacing +
      (convertCSS css s).stats.categoryBreakdown.other +
      ((convertCSS css s).stats.diffs.filter (fun d => d.property == "constructor")).length =
    (convertCSS css s).stats.totalConversions := by
  intro css s
  have h :=
    scanDocInv (fun st => catSum st + ctorCount st.diffs = st.total) pmCatCtor
      (splitLines css.data) s (effectiveBase css s) 1 initState rfl
  simpa [convertCSS, catSum, ctorCount] using h

/-- C4 as stated is false: on `border-width: 1001px;` with target `em`, both
the large-value heuristic and the border-unit heuristic fire for the single
diff, and each increments the counter, so `needsReviewCount` is 2 while only
one diff has `needsReview`. -/
theorem claim_C4_counterexample :
    (convertCSS "border-width: 1001px;" ⟨16, CSSUnit.em, 2⟩).stats.needsReviewCount = 2 ∧
    ((convertCSS "border-width: 1001px;" ⟨16, CSSUnit.em, 2⟩).stats.diffs.filter
        (fun d => d.needsReview)).length = 1 := by
  with_unfolding_all exact of_decide_eq_true rfl

/-- C4 (amended): `needsReviewCount` counts review-heuristic firings, one per
matching heuristic, so a diff with several matching heuristics is counted more
than once; the counter is therefore an upper bound of (not always equal to)
the number of Diff Records whose `needsReview` flag is true. -/
theorem claim_C4_amended : ∀ (css : String) (s : ConversionSettings),
    ((convertCSS css s).stats.diffs.filter (fun d => d.needsReview)).length ≤
      (convertCSS css s).stats.needsReviewCount := by
  intro css s
  have h :=
    scanDocInv (fun st => reviewCount st.diffs ≤ st.nrc) pmNrc (splitLines css.data) s
      (effectiveBase css s) 1 initState (by simp [initState, reviewCount])
  simpa [convertCSS, reviewCount] using h

/-- C5 as stated is false: on `<button style='height: 30px'>` both the
minimum-size check (30 below the 44px minimum for `height`) and the
touch-target check match, and the recorded reason is the touch-target one —
the LAST check in the fixed order wins, not the first. -/
theorem claim_C5_counterexample :
    (convertCSS "<button style=\x27height: 30px\x27>" ⟨16, CSSUnit.rem, 2⟩).stats.diffs.map
        (fun d => d.reviewReason) =
      ["Interactive elements should be at least 44px for touch targets"] ∧
    minSizeIssue "height" 30 =
      some ⟨"height", 30, "Value is below minimum accessible size of 44px", true⟩ ∧
    touchTargetIssue true "height" 30 =
      some ⟨"height", 30, "Interactive elements should be at least 44px for touch targets", true⟩ ∧
    ("Interactive elements should be at least 44px for touch targets" : String) ≠
      "Value is below minimum accessible size of 44px" := by
  with_unfolding_all exact of_decide_eq_true rfl

/-- C5 (amended): at most one accessibility issue is produced per conversion
event — `accessibilityIssues` always equals the number of diffs with
`impactsAccessibility` — and when several accessibility checks match, the one
selected is the LAST in the fixed order minimum-size, maximum-size/ratio,
touch-target (each later matching check overwrites the earlier one). -/
theorem claim_C5_amended :
    (∀ (inter : Bool) (prop : String) (pv effBase : ℚ) (i : AccessibilityIssue),
        touchTargetIssue inter prop pv = some i →
          pickAccIssue inter prop pv effBase = some i) ∧
    (∀ (inter : Bool) (prop : String) (pv effBase : ℚ) (i : AccessibilityIssue),
        touchTargetIssue inter prop pv = none → maxSizeIssue prop pv effBase = some i →
          pickAccIssue inter prop pv effBase = some i) ∧
    (∀ (inter : Bool) (prop : String) (pv effBase : ℚ),
        touchTargetIssue inter prop pv = none → maxSizeIssue prop pv effBase = none →
          pickAccIssue inter prop pv effBase = minSizeIssue prop pv) ∧
    (∀ (css : String) (s : ConversionSettings),
        (convertCSS css s).stats.accessibilityIssues =
          ((convertCSS css s).stats.diffs.filter (fun d => d.impactsAccessibility)).length) := by
  refine ⟨?_, ?_, ?_, ?_⟩
  · intro inter prop pv effBase i ht
    simp [pickAccIssue, ht]
  · intro inter prop pv effBase i ht hm
    simp [pickAccIssue, ht, hm]
  · intro inter prop pv effBase ht hm
    simp [pickAccIssue, ht, hm]
  · intro css s
    have h :=
      scanDocInv (fun st => accessCount st.diffs = st.accCount) pmAcc (splitLines css.data) s
        (effectiveBase css s) 1 initState (by simp [initState, accessCount])
    simpa [convertCSS, accessCount] using h.symm

/-- Witness for C5 (amended): the touch-target issue overrides the matching
minimum-size issue at a concrete input. -/
theorem claim_C5_witness :
    pickAccIssue true "height" 30 16 =
      some ⟨"height", 30, "Interactive elements should be at least 44px for touch targets", true⟩ :=
  claim_C5_amended.1 true "height" 30 16
    ⟨"height", 30, "Interactive elements should be at least 44px for touch targets", true⟩
    (by with_unfolding_all exact of_decide_eq_true rfl)

/-- Modelled from the spec's words (for comparison with the source's
`convertCSSValue`): "Compute `ratio = pixelValue / basePixelSize`; for `rem`
and `em`: output value = `ratio`; for `%`, `vw`, `vh`: output value =
`ratio * 100`." -/
def ratioSpec (pv : ℚ) (s : ConversionSettings) : ℚ :=
  let ratio := pv / s.basePixelSize
  match s.targetUnit with
  | CSSUnit.rem => ratio
  | CSSUnit.em => ratio
  | CSSUnit.pct => ratio * 100
  | CSSUnit.vw => ratio * 100
  | CSSUnit.vh => ratio * 100

/-- C3: for every value that parses as a number, the numeric output of
`convertCSSValue` is the spec's `v / b` for `rem`/`em` and `(v / b) * 100` for
`%`/`vw`/`vh` (formatted at the configured precision, then concatenated with
the unit); and the worked example holds: base 16, target em, precision 2 turn
`font-size: 20px;` into `font-size: 1.25em;`. -/
theorem claim_C3 :
    (∀ (value : String) (pv : ℚ) (s : ConversionSettings), jsParseFloat value = some pv →
        convertCSSValue value s =
          decStr (jsRoundFixed (ratioSpec pv s) s.precision) ++ unitToStr s.targetUnit) ∧
    (convertCSS "font-size: 20px;" ⟨16, CSSUnit.em, 2⟩).convertedCode = "font-size: 1.25em;" := by
  constructor
  · intro value pv s h
    obtain ⟨b, u, p⟩ := s
    simp only [convertCSSValue, h]
    cases u <;> simp [ratioSpec]
  · with_unfolding_all exact of_decide_eq_true rfl

/-- Witness for C3 at the worked example's numeric literal. -/
theorem claim_C3_witness :
    convertCSSValue "20" ⟨16, CSSUnit.em, 2⟩ =
      decStr (jsRoundFixed (ratioSpec 20 ⟨16, CSSUnit.em, 2⟩) 2) ++ unitToStr CSSUnit.em :=
  claim_C3.1 "20" 20 ⟨16, CSSUnit.em, 2⟩ (by with_unfolding_all exact of_decide_eq_true rfl)

theorem scanAuxF_fst_nil (es : ConversionSettings) : ∀ (fuel : Nat) (cs : List Char),
    (scanAuxF es fuel cs).1 = [] → (scanAuxF es fuel cs).2 = cs := by
  intro fuel
  induction fuel with
  | zero => intro cs _; rfl
  | succ f ih =>
    intro cs
    cases cs with
    | nil => intro _; rfl
    | cons c cs' =>
      cases h : tryMatchAt (c :: cs') with
      | some pr =>
        obtain ⟨g1, g2, rest⟩ := pr
        intro h1
        simp only [scanAuxF, h] at h1
        exact absurd h1 (List.cons_ne_nil _ _)
      | none =>
        intro h1
        simp only [scanAuxF, h] at h1 ⊢
        exact congrArg (c :: ·) (ih cs' h1)

theorem splitLines_ne_nil : ∀ cs : List Char, splitLines cs ≠ [] := by
  intro cs
  cases cs with
  | nil => simp [splitLines]
  | cons c cs =>
    simp only [splitLines]
    split
    · simp
    · cases h : splitLines cs with
      | nil => simp
      | cons l ls => simp

theorem joinLines_splitLines : ∀ cs : List Char, joinLines (splitLines cs) = cs := by
  intro cs
  induction cs with
  | nil => rfl
  | cons c cs ih =>
    obtain ⟨l, ls, hls⟩ : ∃ l ls, splitLines cs = l :: ls := by
      cases h : splitLines cs with
      | nil => exact absurd h (splitLines_ne_nil cs)
      | cons l ls => exact ⟨l, ls, rfl⟩
    by_cases hc : c = '\n'
    · subst hc
      simp only [splitLines, if_pos]
      rw [hls]
      rw [hls] at ih
      show ([] : List Char) ++ '\n' :: joinLines (l :: ls) = '\n' :: cs
      rw [List.nil_append, ih]
    · have hcb : (c == '\n') = false := by simp [hc]
      simp only [splitLines, hcb, if_false]
      rw [hls]
      rw [hls] at ih
      cases ls with
      | nil =>
        show c :: l = c :: cs
        rw [show joinLines [l] = l from rfl] at ih
        rw [ih]
      | cons l2 ls2 =>
        show (c :: l) ++ '\n' :: joinLines (l2 :: ls2) = c :: cs
        rw [List.cons_append]
        rw [show l ++ '\n' :: joinLines (l2 :: ls2) = joinLines (l :: l2 :: ls2) from rfl]
        rw [ih]

theorem scanDocNoMatch (settings : ConversionSettings) (b : ℚ) :
    ∀ (ls : List (List Char)) (n : Nat) (st : ScanState),
      (∀ l ∈ ls, (scanAuxF { settings with basePixelSize := b } l.length l).1 = []) →
      scanDoc settings b n ls st = (st, ls) := by
  intro ls
  induction ls with
  | nil => intro n st _; rfl
  | cons l ls ih =>
    intro n st h
    have hl := h l (List.mem_cons_self _ _)
    have hrest := fun l' hl' => h l' (List.mem_cons_of_mem _ hl')
    simp only [scanDoc]
    rw [hl, scanAuxF_fst_nil _ _ _ hl]
    simp only [List.foldl_nil]
    rw [ih (n + 1) st hrest]

/-- C8: when no line of the input has an occurrence of the pixel-value
pattern, `convertCSS` returns the input unchanged and reports zero
conversions. -/
theorem claim_C8 (css : String) (s : ConversionSettings)
    (h : ∀ l ∈ splitLines css.data,
        (scanAuxF { s with basePixelSize := effectiveBase css s } l.length l).1 = []) :
    (convertCSS css s).convertedCode = css ∧
    (convertCSS css s).stats.totalConversions = 0 := by
  have hd := scanDocNoMatch s (effectiveBase css s) (splitLines css.data) 1 initState h
  constructor
  · show String.mk (joinLines (scanDoc s (effectiveBase css s) 1 (splitLines css.data) initState).2) = css
    rw [hd]
    show String.mk (joinLines (splitLines css.data)) = css
    rw [joinLines_splitLines]
  · show (scanDoc s (effectiveBase css s) 1 (splitLines css.data) initState).1.total = 0
    rw [hd]
    rfl

/-- Witness for C8 on a px-free input. -/
theorem claim_C8_witness :
    (convertCSS "body color red" ⟨16, CSSUnit.rem, 2⟩).convertedCode = "body color red" ∧
    (convertCSS "body color red" ⟨16, CSSUnit.rem, 2⟩).stats.totalConversions = 0 :=
  claim_C8 "body color red" ⟨16, CSSUnit.rem, 2⟩
    (by with_unfolding_all exact of_decide_eq_true rfl)

/-- Which positions match the pattern does not depend on the settings: the
settings only shape the replacement text. -/
theorem scanAuxF_fst_indep (es es' : ConversionSettings) : ∀ (fuel : Nat) (cs : List Char),
    (scanAuxF es fuel cs).1 = (scanAuxF es' fuel cs).1 := by
  intro fuel
  induction fuel with
  | zero => intro cs; rfl
  | succ f ih =>
    intro cs
    cases cs with
    | nil => rfl
    | cons c cs' =>
      cases h : tryMatchAt (c :: cs') with
      | some pr =>
        obtain ⟨g1, g2, rest⟩ := pr
        simp only [scanAuxF, h]
        rw [ih rest]
      | none =>
        simp only [scanAuxF, h]
        exact ih cs'

/-- No string followed by one of the five unit suffixes can equal `"30"`. -/
theorem appendUnitNe (a : String) (u : CSSUnit) : a ++ unitToStr u ≠ "30" := by
  intro h
  have hd := congrArg String.data h
  rw [String.data_append] at hd
  have hl := congrArg List.getLast? hd
  cases u <;>
    rw [List.getLast?_append_of_ne_nil a.data (by decide)] at hl <;>
    exact absurd hl (by decide)

/-- The scanner's capture `30` is always changed by the Value Converter: the
output carries a unit suffix, whatever the configuration. -/
theorem conv30Ne (es : ConversionSettings) : convertCSSValue "30" es ≠ "30" := by
  have hp : jsParseFloat "30" = some 30 := by with_unfolding_all exact of_decide_eq_true rfl
  simp only [convertCSSValue, hp]
  exact appendUnitNe _ _

/-- The touch-target guarantee at the level of one conversion event: whenever
the line is interactive, the property is height or width, and the parsed value
is below 44, the recorded diff carries the touch-target accessibility issue —
its reason overrides whatever the other heuristics produced — and the
accessibility counter is incremented. -/
theorem pmTouch (settings : ConversionSettings) (b : ℚ) (lt : String) (n : Nat)
    (st : ScanState) (g1 g2 : String) (pv : ℚ)
    (hp : jsParseFloat g2 = some pv) (h44 : pv < 44)
    (hprop : cleanProp g1 = "height" ∨ cleanProp g1 = "width")
    (hint : isInteractiveLine lt = true)
    (hconv : convertCSSValue g2 { settings with basePixelSize := b } ≠ g2) :
    ∃ d : ConversionDiff,
      (processMatch settings b lt n st (g1, g2)).diffs = st.diffs ++ [d] ∧
      d.property = cleanProp g1 ∧
      d.impactsAccessibility = true ∧
      d.reviewReason = "Interactive elements should be at least 44px for touch targets" ∧
      (processMatch settings b lt n st (g1, g2)).accCount = st.accCount + 1 := by
  have htouch : touchTargetIssue (isInteractiveLine lt) (cleanProp g1) ((jsParseFloat g2).getD 0) =
      some ⟨cleanProp g1, pv,
        "Interactive elements should be at least 44px for touch targets", true⟩ := by
    rw [hp]
    show touchTargetIssue (isInteractiveLine lt) (cleanProp g1) pv = _
    unfold touchTargetIssue
    rw [if_pos ⟨hint, hprop, h44⟩]
  have hpick : pickAccIssue (isInteractiveLine lt) (cleanProp g1) ((jsParseFloat g2).getD 0) b =
      some ⟨cleanProp g1, pv,
        "Interactive elements should be at least 44px for touch targets", true⟩ := by
    unfold pickAccIssue
    rw [htouch]
  unfold processMatch
  rw [if_pos (show convertCSSValue (g1, g2).2 { settings with basePixelSize := b } ≠ (g1, g2).2
    from hconv)]
  simp only [applyMatch, hpick]
  exact ⟨_, rfl, rfl, rfl, rfl, rfl⟩

/-- C6: for every conversion event on a line containing an interactive-element
indicator whose property is height or width with pixel value below 44, the
recorded diff carries the touch-target accessibility issue, regardless of
which other heuristics already triggered; in particular the line
`<button style='height: 30px'>` yields exactly that diff (and issue count 1)
under EVERY configuration. -/
theorem claim_C6 :
    (∀ (settings : ConversionSettings) (b : ℚ) (lt : String) (n : Nat) (st : ScanState)
        (g1 g2 : String) (pv : ℚ),
        jsParseFloat g2 = some pv → pv < 44 →
        (cleanProp g1 = "height" ∨ cleanProp g1 = "width") →
        isInteractiveLine lt = true →
        convertCSSValue g2 { settings with basePixelSize := b } ≠ g2 →
        ∃ d : ConversionDiff,
          (processMatch settings b lt n st (g1, g2)).diffs = st.diffs ++ [d] ∧
          d.property = cleanProp g1 ∧
          d.impactsAccessibility = true ∧
          d.reviewReason = "Interactive elements should be at least 44px for touch targets" ∧
          (processMatch settings b lt n st (g1, g2)).accCount = st.accCount + 1) ∧
    (∀ s : ConversionSettings,
        (convertCSS "<button style=\x27height: 30px\x27>" s).stats.diffs.map
            (fun d => (d.property, d.impactsAccessibility, d.reviewReason)) =
          [("height", true, "Interactive elements should be at least 44px for touch targets")] ∧
        (convertCSS "<button style=\x27height: 30px\x27>" s).stats.accessibilityIssues = 1) := by
  constructor
  · intro settings b lt n st g1 g2 pv hp h44 hprop hint hconv
    exact pmTouch settings b lt n st g1 g2 pv hp h44 hprop hint hconv
  · intro s
    have hdet : detectRootFontSize "<button style=\x27height: 30px\x27>" = none := by
      with_unfolding_all exact of_decide_eq_true rfl
    have hsplit : splitLines ("<button style=\x27height: 30px\x27>" : String).data =
        [("<button style=\x27height: 30px\x27>" : String).data] := by
      with_unfolding_all exact of_decide_eq_true rfl
    have hm : (scanAuxF
          { s with basePixelSize := effectiveBase "<button style=\x27height: 30px\x27>" s }
          (("<button style=\x27height: 30px\x27>" : String).data.length)
          ("<button style=\x27height: 30px\x27>" : String).data).1 = [("height: ", "30")] := by
      rw [scanAuxF_fst_indep _ ⟨1, CSSUnit.rem, 0⟩]
      with_unfolding_all exact of_decide_eq_true rfl
    obtain ⟨d, hd, hprop, hacc, hreason, hcount⟩ :=
      pmTouch s (effectiveBase "<button style=\x27height: 30px\x27>" s)
        (String.mk ("<button style=\x27height: 30px\x27>" : String).data) 1 initState
        "height: " "30" 30
        (by with_unfolding_all exact of_decide_eq_true rfl)
        (by norm_num)
        (Or.inl (by with_unfolding_all exact of_decide_eq_true rfl))
        (by with_unfolding_all exact of_decide_eq_true rfl)
        (conv30Ne _)
    simp only [convertCSS]
    rw [hsplit]
    simp only [scanDoc, hm, List.foldl_cons, List.foldl_nil]
    rw [hd, hcount]
    have hcp : cleanProp "height: " = "height" := by
      with_unfolding_all exact of_decide_eq_true rfl
    simp [hprop, hacc, hreason, hcp, initState]

/-- Witness for C6 at a concrete conversion event. -/
theorem claim_C6_witness :
    ∃ d : ConversionDiff,
      (processMatch ⟨16, CSSUnit.rem, 2⟩ 16 "<button style=\x27height: 30px\x27>" 1 initState
          ("height: ", "30")).diffs = initState.diffs ++ [d] ∧
      d.property = cleanProp "height: " ∧
      d.impactsAccessibility = true ∧
      d.reviewReason = "Interactive elements should be at least 44px for touch targets" ∧
      (processMatch ⟨16, CSSUnit.rem, 2⟩ 16 "<button style=\x27height: 30px\x27>" 1 initState
          ("height: ", "30")).accCount = initState.accCount + 1 :=
  claim_C6.1 ⟨16, CSSUnit.rem, 2⟩ 16 "<button style=\x27height: 30px\x27>" 1 initState
    "height: " "30" 30
    (by with_unfolding_all exact of_decide_eq_true rfl)
    (by norm_num)
    (Or.inl (by with_unfolding_all exact of_decide_eq_true rfl))
    (by with_unfolding_all exact of_decide_eq_true rfl)
    (by with_unfolding_all exact of_decide_eq_true rfl)
